import Mathlib

set_option maxRecDepth 4000

/-!
Verification development for the debt-list dashboard widget
(`client/src/components/dashboard/quick-stats.tsx`).

The component is embedded shallowly:
* JavaScript numbers are idealised as `Option ℚ` — `some q` for a finite
  value, `none` for `NaN` (the non-finite `Infinity` values, which are not
  representable in `ℚ`, are mapped to `none` as well; no string handled by
  the component is an Infinity literal).
* `parseFloat`, `Number.prototype.toFixed` and `Array.prototype.sort` are
  modelled from their ECMA-262 semantics, since the component's behaviour
  depends on them.
* The host `Date` parser is kept abstract: derivations that need it take a
  `parseDate : String → Option Int` argument (`some t` = the millisecond
  timestamp `getTime` would return, `none` = an Invalid Date / `NaN`).
  ECMA-262 guarantees `parseDate "" = none`: the empty string is not a
  valid date-time string.
* The React component's state is an explicit structure; event handlers and
  mutation callbacks become functions from state to state plus a list of
  emitted effects (network requests, toast notifications, cache
  invalidations and refetches).
-/

/-! ### JavaScript number-string primitives -/

/-- A decimal-digit test on characters. -/
def isDigitCh (c : Char) : Bool := '0' ≤ c && c ≤ '9'

/-- Consume a maximal run of decimal digits, returning the accumulated value,
the number of digits consumed, and the remaining characters. -/
def takeDigits (acc : Nat) (k : Nat) : List Char → Nat × Nat × List Char
  | [] => (acc, k, [])
  | c :: cs =>
    if isDigitCh c then takeDigits (acc * 10 + (c.toNat - 48)) (k + 1) cs
    else (acc, k, c :: cs)

/-- Consume an optional ECMA-262 `ExponentPart` (`e`/`E`, optional sign,
digits).  If the digits are missing the exponent marker is not consumed and
the exponent is 0, as in `parseFloat "1e"`. -/
def parseExponent (cs : List Char) : Int :=
  match cs with
  | 'e' :: rest =>
    (match rest with
     | '+' :: r => (takeDigits 0 0 r).1
     | '-' :: r => if (takeDigits 0 0 r).2.1 = 0 then 0 else -(takeDigits 0 0 r).1
     | r => (takeDigits 0 0 r).1)
  | 'E' :: rest =>
    (match rest with
     | '+' :: r => (takeDigits 0 0 r).1
     | '-' :: r => if (takeDigits 0 0 r).2.1 = 0 then 0 else -(takeDigits 0 0 r).1
     | r => (takeDigits 0 0 r).1)
  | _ => 0

/-- Parse an unsigned `StrDecimalLiteral` prefix: digits, an optional dot
with further digits, and an optional exponent.  `none` when not a single
digit is present (ECMA-262: `parseFloat` yields `NaN`). -/
def parseUnsigned (cs : List Char) : Option Rat :=
  let ipart := takeDigits 0 0 cs
  let fpart :=
    match ipart.2.2 with
    | '.' :: rest => takeDigits 0 0 rest
    | _ => (0, 0, ipart.2.2)
  if ipart.2.1 = 0 && fpart.2.1 = 0 then none
  else
    let e := parseExponent fpart.2.2
    let mantissa : Rat := ((ipart.1 * 10 ^ fpart.2.1 + fpart.1 : Nat) : Rat) / ((10 ^ fpart.2.1 : Nat) : Rat)
    some (mantissa * (10 : Rat) ^ e)

/-- ECMA-262 `parseFloat`: skip leading whitespace, read an optional sign,
then the longest `StrDecimalLiteral` prefix; `none` models `NaN`.
(The `Infinity` literals, not representable in `ℚ`, also map to `none`;
they never arise for the component's inputs.) -/
def jsParseFloat (s : String) : Option Rat :=
  match s.toList.dropWhile (fun c => c.isWhitespace) with
  | '+' :: rest => parseUnsigned rest
  | '-' :: rest => (parseUnsigned rest).map (fun q => -q)
  | cs => parseUnsigned cs

/-- Two-decimal digit padding used by `toFixed2`. -/
def pad2 (r : Nat) : String :=
  if r < 10 then "0" ++ Nat.repr r else Nat.repr r

/-- Print the scaled-by-100 magnitude `n` with two decimal places. -/
def fixedDigits (n : Nat) : String :=
  Nat.repr (n / 100) ++ "." ++ pad2 (n % 100)

/-- ECMA-262 `Number.prototype.toFixed(2)` on a finite value: strip the
sign, pick the integer `n` with `n / 100` closest to the magnitude (ties to
the larger `n`, so `n = ⌊|q| * 100 + 1/2⌋`), and print `n` with two
decimals behind the sign. -/
def toFixed2 (q : Rat) : String :=
  (if q < 0 then "-" else "") ++ fixedDigits (⌊|q| * 100 + 1 / 2⌋).toNat

/-- `toFixed(2)` lifted to a JS number: `NaN.toFixed(2)` is `"NaN"`. -/
def jsNumToFixed2 : Option Rat → String
  | none => "NaN"
  | some q => toFixed2 q

/-! ### Data model

`Customer` is modelled from the fields the component reads off the
`@shared/schema` record: `id` and `name` are strings, `totalDebt` and
`createdAt` are nullable strings (the component guards both with
truthiness / `??`). -/

structure Customer where
  id : String
  name : String
  totalDebt : Option String
  createdAt : Option String
deriving DecidableEq

/-- The two values of the `sortOrder` state. -/
inductive SortOrder where
  | newest
  | highest
deriving DecidableEq

/-! ### Stable comparator sort (`Array.prototype.sort`)

ES2019 `Array.prototype.sort` is a stable comparison sort; `SortCompare`
maps a `NaN` comparator result to `+0`.  We model it as a stable insertion
sort over the boolean relation "the comparator result is ≤ 0". -/

/-- Insert `a` in front of the first element `b` with `le a b`. -/
def stableInsert (le : α → α → Bool) (a : α) : List α → List α
  | [] => [a]
  | b :: l => if le a b then a :: b :: l else b :: stableInsert le a l

/-- Stable insertion sort over a boolean "may come first" relation. -/
def stableSort (le : α → α → Bool) : List α → List α
  | [] => []
  | a :: l => stableInsert le a (stableSort le l)

/-! ### The derived debtor list -/

/-- `parseFloat(customer.totalDebt ?? "0")` as a JS number: the expression
used by the `highest` comparator and by the footer reduce step. -/
def debtNumber (c : Customer) : Option Rat :=
  jsParseFloat (c.totalDebt.getD "0")

/-- `new Date(customer.createdAt ?? "").getTime()` as a JS number, with the
host `Date` parser abstract. -/
def dateNumber (parseDate : String → Option Int) (c : Customer) : Option Int :=
  parseDate (c.createdAt.getD "")

/-- The parsed debt with the `NaN`/absent fallback 0 — the numeric reading
of a customer's debt used to state ordering and aggregation properties. -/
def debtVal (c : Customer) : Rat :=
  (debtNumber c).getD 0

/-- The parsed `createdAt` timestamp read as a number, `NaN`/absent falling
back to 0 (the epoch start) — the reading the spec ascribes to the `newest`
comparator. -/
def dateVal (parseDate : String → Option Int) (c : Customer) : Int :=
  (dateNumber parseDate c).getD 0

/-- The filter predicate of `debtorCustomers`:
`customer.totalDebt && parseFloat(customer.totalDebt) > 0`.
A `null`/absent or empty `totalDebt` string is falsy; `NaN > 0` is false. -/
def isDebtor (c : Customer) : Bool :=
  match c.totalDebt with
  | none => false
  | some s =>
    if s = "" then false
    else
      match jsParseFloat s with
      | some q => decide (0 < q)
      | none => false

/-- The `highest` comparator `(a, b) => parseFloat(b.totalDebt ?? "0") -
parseFloat(a.totalDebt ?? "0")`, with ECMA `SortCompare` turning a `NaN`
result into `+0`. -/
def cmpHighest (a b : Customer) : Rat :=
  match debtNumber b, debtNumber a with
  | some x, some y => x - y
  | _, _ => 0

/-- The `newest` comparator `(a, b) => new Date(b.createdAt ?? "").getTime()
- new Date(a.createdAt ?? "").getTime()`, with ECMA `SortCompare` turning a
`NaN` result into `+0` (an Invalid Date has `NaN` time). -/
def cmpNewest (parseDate : String → Option Int) (a b : Customer) : Rat :=
  match dateNumber parseDate b, dateNumber parseDate a with
  | some x, some y => (x : Rat) - (y : Rat)
  | _, _ => 0

/-- `customers.filter(...).sort(...)` — the Debtor List projection. -/
def debtorCustomers (parseDate : String → Option Int) (sortOrder : SortOrder)
    (customers : List Customer) : List Customer :=
  stableSort
    (fun a b =>
      match sortOrder with
      | .highest => decide (cmpHighest a b ≤ 0)
      | .newest => decide (cmpNewest parseDate a b ≤ 0))
    (customers.filter isDebtor)

/-! ### Rendering helpers -/

/-- `formatDebt`: `"0.00"` for a falsy or unparsable debt string, otherwise
the parsed value to two decimals. -/
def formatDebt (debt : Option String) : String :=
  match debt with
  | none => "0.00"
  | some s =>
    if s = "" then "0.00"
    else
      match jsParseFloat s with
      | none => "0.00"
      | some q => toFixed2 q

/-- `getDebtColor`: neutral for a falsy debt string, otherwise three tiers
by the parsed value (`NaN` fails both `>=` tests and lands in the lowest
tier). -/
def getDebtColor (debt : Option String) : String :=
  match debt with
  | none => "text-slate-500"
  | some s =>
    if s = "" then "text-slate-500"
    else
      match jsParseFloat s with
      | none => "text-yellow-600"
      | some q =>
        if 5000 ≤ q then "text-red-600"
        else if 1000 ≤ q then "text-orange-600"
        else "text-yellow-600"

/-- One step of the footer reduce
`(sum, c) => sum + parseFloat(c.totalDebt ?? "0")`; a `NaN` on either side
makes the running sum `NaN`. -/
def footerStep (sum : Option Rat) (c : Customer) : Option Rat :=
  match sum, debtNumber c with
  | some s, some q => some (s + q)
  | _, _ => none

/-- The footer aggregate
`debtorCustomers.reduce((sum, c) => sum + parseFloat(c.totalDebt ?? "0"), 0)`. -/
def footerSum (debtors : List Customer) : Option Rat :=
  debtors.foldl footerStep (some 0)

/-- The footer is rendered under the guard `debtorCustomers.length > 0`. -/
def footerVisible (debtors : List Customer) : Bool :=
  decide (0 < debtors.length)

/-- The debt total string the footer displays: the reduce result piped
through `.toFixed(2)`. -/
def footerTotal (debtors : List Customer) : String :=
  jsNumToFixed2 (footerSum debtors)

/-! ### Component state, handlers and effects -/

/-- The component-local React state touched by the payment flow. -/
structure ComponentState where
  sortOrder : SortOrder
  showPaymentModal : Bool
  selectedCustomer : Option Customer
  paymentAmount : String
deriving DecidableEq

/-- Observable effects the handlers emit: the POST payment request (with a
possibly-`NaN` amount), toast notifications, and query-cache operations. -/
inductive Effect where
  | paymentRequest (customerId : String) (amount : Option Rat) (currency : String)
  | toast (title description : String) (destructive : Bool)
  | invalidateQueries (queryKey : String)
  | refetchQueries (queryKey : String)
deriving DecidableEq

/-- Is an effect a toast notification? -/
def Effect.isToast : Effect → Bool
  | .toast _ _ _ => true
  | _ => false

/-- Is an effect a network (payment) request? -/
def Effect.isRequest : Effect → Bool
  | .paymentRequest _ _ _ => true
  | _ => false

/-- `handlePayment`: silently return when no customer is selected or the
amount string is empty; toast a validation error (and send nothing) when the
parsed amount is `<= 0`; otherwise call `paymentMutation.mutate` with the
selected customer's id and the parsed amount (`NaN <= 0` is false, so an
unparsable non-empty amount is sent through).  The handler changes no
state. -/
def handlePayment (currency : String) (s : ComponentState) : List Effect :=
  match s.selectedCustomer with
  | none => []
  | some c =>
    if s.paymentAmount = "" then []
    else
      match jsParseFloat s.paymentAmount with
      | some q =>
        if q ≤ 0 then
          [Effect.toast "خطأ" "يجب أن يكون المبلغ أكبر من صفر" true]
        else
          [Effect.paymentRequest c.id (some q) currency]
      | none => [Effect.paymentRequest c.id none currency]

/-- `openPaymentModal`: select the customer, clear the draft amount, open
the dialog; nothing else. -/
def openPaymentModal (c : Customer) (s : ComponentState) : ComponentState × List Effect :=
  ({ s with selectedCustomer := some c, paymentAmount := "", showPaymentModal := true }, [])

/-- The JSON body of a successful payment response; `newDebt` may be
absent. -/
structure PaymentResponse where
  newDebt : Option Rat
deriving DecidableEq

/-- `paymentMutation.onSuccess`: invalidate customers and transactions,
refetch customers, toast the paid amount and `data.newDebt || 0`, close the
dialog, clear the selection and the draft amount. -/
def onSuccess (currency : String) (resp : PaymentResponse) (s : ComponentState) :
    ComponentState × List Effect :=
  ({ s with showPaymentModal := false, selectedCustomer := none, paymentAmount := "" },
   [Effect.invalidateQueries "/api/customers",
    Effect.invalidateQueries "/api/transactions",
    Effect.refetchQueries "/api/customers",
    Effect.toast "تم السداد بنجاح"
      ("تم دفع " ++ s.paymentAmount ++ " " ++ currency ++ ". الرصيد المتبقي: "
        ++ toFixed2 (resp.newDebt.getD 0) ++ " " ++ currency)
      false])

/-- `paymentMutation.onError`: toast a failure; no state change. -/
def onError (s : ComponentState) : ComponentState × List Effect :=
  (s, [Effect.toast "خطأ في السداد" "فشل في معالجة السداد" true])

/-- How the mutation settles: an OK response with a JSON body, a non-OK
response (the `mutationFn` throws `"Failed to process payment"`), or a
transport error. -/
inductive HttpResult where
  | ok (body : PaymentResponse)
  | notOk
  | thrown
deriving DecidableEq

/-- Dispatch of the settled mutation: an OK response runs `onSuccess`; a
non-OK response or a thrown error runs `onError`. -/
def settleMutation (currency : String) (r : HttpResult) (s : ComponentState) :
    ComponentState × List Effect :=
  match r with
  | .ok body => onSuccess currency body s
  | .notOk => onError s
  | .thrown => onError s

/-- A rendered button: its `disabled` prop and its label. -/
structure ButtonView where
  disabled : Bool
  label : String
deriving DecidableEq

/-- The confirm control:
`disabled={!paymentAmount || paymentMutation.isPending}`, busy label while
pending. -/
def confirmButton (s : ComponentState) (isPending : Bool) : ButtonView :=
  ⟨(s.paymentAmount = "") || isPending,
   if isPending then "جارٍ المعالجة..." else "تأكيد السداد"⟩

/-- The cancel control: `disabled={paymentMutation.isPending}`. -/
def cancelButton (isPending : Bool) : ButtonView :=
  ⟨isPending, "إلغاء"⟩

/-! ### Lemmas about the stable sort -/

theorem mem_stableInsert (le : α → α → Bool) (a x : α) (l : List α) :
    x ∈ stableInsert le a l ↔ x = a ∨ x ∈ l := by
  induction l with
  | nil => simp [stableInsert]
  | cons b t ih =>
    simp only [stableInsert]
    by_cases h : le a b = true
    · simp only [if_pos h, List.mem_cons]
    · simp only [if_neg h, List.mem_cons, ih]
      tauto

theorem mem_stableSort (le : α → α → Bool) (x : α) (l : List α) :
    x ∈ stableSort le l ↔ x ∈ l := by
  induction l with
  | nil => simp [stableSort]
  | cons a t ih =>
    simp only [stableSort, mem_stableInsert, List.mem_cons, ih]

theorem length_stableInsert (le : α → α → Bool) (a : α) (l : List α) :
    (stableInsert le a l).length = l.length + 1 := by
  induction l with
  | nil => simp [stableInsert]
  | cons b t ih =>
    simp only [stableInsert]
    by_cases h : le a b = true
    · simp [if_pos h]
    · simp [if_neg h, ih]

theorem length_stableSort (le : α → α → Bool) (l : List α) :
    (stableSort le l).length = l.length := by
  induction l with
  | nil => rfl
  | cons a t ih => simp [stableSort, length_stableInsert, ih]

theorem pairwise_stableInsert {R : α → α → Prop} (le : α → α → Bool) (a : α) (l : List α)
    (htrans : ∀ x y z, R x y → R y z → R x z)
    (hag : ∀ b ∈ l, (le a b = true ↔ R a b))
    (htot : ∀ b ∈ l, R a b ∨ R b a)
    (hl : List.Pairwise R l) :
    List.Pairwise R (stableInsert le a l) := by
  induction l with
  | nil => simp [stableInsert]
  | cons b t ih =>
    rcases List.pairwise_cons.mp hl with ⟨hbt, ht⟩
    simp only [stableInsert]
    by_cases h : le a b = true
    · rw [if_pos h]
      have hab : R a b := (hag b (by simp)).mp h
      refine List.pairwise_cons.mpr ⟨?_, hl⟩
      intro x hx
      rcases List.mem_cons.mp hx with rfl | hx
      · exact hab
      · exact htrans a b x hab (hbt x hx)
    · rw [if_neg h]
      have hba : R b a := by
        rcases htot b (by simp) with hab | hba
        · exact absurd ((hag b (by simp)).mpr hab) h
        · exact hba
      refine List.pairwise_cons.mpr ⟨?_, ?_⟩
      · intro x hx
        rcases (mem_stableInsert le a x t).mp hx with rfl | hx
        · exact hba
        · exact hbt x hx
      · exact ih (fun c hc => hag c (by simp [hc])) (fun c hc => htot c (by simp [hc])) ht

theorem pairwise_stableSort {R : α → α → Prop} (le : α → α → Bool) (l : List α)
    (htrans : ∀ x y z, R x y → R y z → R x z)
    (hag : ∀ a ∈ l, ∀ b ∈ l, (le a b = true ↔ R a b))
    (htot : ∀ a ∈ l, ∀ b ∈ l, R a b ∨ R b a) :
    List.Pairwise R (stableSort le l) := by
  induction l with
  | nil => exact List.Pairwise.nil
  | cons a t ih =>
    simp only [stableSort]
    refine pairwise_stableInsert le a _ htrans ?_ ?_
      (ih (fun x hx y hy => hag x (by simp [hx]) y (by simp [hy]))
          (fun x hx y hy => htot x (by simp [hx]) y (by simp [hy])))
    · intro b hb
      have hbt : b ∈ t := (mem_stableSort le b t).mp hb
      exact hag a (by simp) b (by simp [hbt])
    · intro b hb
      have hbt : b ∈ t := (mem_stableSort le b t).mp hb
      exact htot a (by simp) b (by simp [hbt])

/-! ### Lemmas about the debtor predicate -/

theorem jsParseFloat_empty : jsParseFloat "" = none := by
  with_unfolding_all rfl

theorem isDebtor_iff (c : Customer) :
    isDebtor c = true ↔
      ∃ s, c.totalDebt = some s ∧ ∃ q, jsParseFloat s = some q ∧ 0 < q := by
  unfold isDebtor
  cases hd : c.totalDebt with
  | none => simp
  | some s =>
    by_cases hs : s = ""
    · subst hs
      simp [jsParseFloat_empty]
    · simp only [if_neg hs]
      cases hq : jsParseFloat s with
      | none =>
        simp only [Bool.false_eq_true, false_iff]
        rintro ⟨s', hs', q', hq', h⟩
        cases hs'
        rw [hq] at hq'
        cases hq'
      | some q =>
        simp only [decide_eq_true_eq]
        constructor
        · intro h
          exact ⟨s, rfl, q, hq, h⟩
        · rintro ⟨s', hs', q', hq', h⟩
          cases hs'
          rw [hq] at hq'
          cases hq'
          exact h

theorem isDebtor_debtNumber {c : Customer} (h : isDebtor c = true) :
    ∃ q, debtNumber c = some q ∧ 0 < q := by
  rcases (isDebtor_iff c).mp h with ⟨s, hs, q, hq, hpos⟩
  exact ⟨q, by simp [debtNumber, hs, hq], hpos⟩

theorem mem_debtorCustomers_isDebtor {parseDate : String → Option Int}
    {sortOrder : SortOrder} {customers : List Customer} {c : Customer}
    (h : c ∈ debtorCustomers parseDate sortOrder customers) : isDebtor c = true := by
  unfold debtorCustomers at h
  exact (List.mem_filter.mp ((mem_stableSort _ c _).mp h)).2

theorem perm_stableInsert (le : α → α → Bool) (a : α) (l : List α) :
    (stableInsert le a l).Perm (a :: l) := by
  induction l with
  | nil => exact List.Perm.refl _
  | cons b t ih =>
    simp only [stableInsert]
    by_cases h : le a b = true
    · rw [if_pos h]
    · rw [if_neg h]
      exact (ih.cons b).trans (List.Perm.swap a b t)

theorem perm_stableSort (le : α → α → Bool) (l : List α) :
    (stableSort le l).Perm l := by
  induction l with
  | nil => exact List.Perm.refl _
  | cons a t ih =>
    exact (perm_stableInsert le a (stableSort le t)).trans (ih.cons a)

/-! ### Comparator agreement lemmas -/

theorem debtVal_of_debtNumber {c : Customer} {q : Rat} (h : debtNumber c = some q) :
    debtVal c = q := by
  simp [debtVal, h]

theorem dateVal_of_dateNumber {parseDate : String → Option Int} {c : Customer} {t : Int}
    (h : dateNumber parseDate c = some t) : dateVal parseDate c = t := by
  simp [dateVal, h]

theorem cmpHighest_le_iff {a b : Customer} {x y : Rat}
    (hb : debtNumber b = some x) (ha : debtNumber a = some y) :
    (cmpHighest a b ≤ 0 ↔ x ≤ y) := by
  unfold cmpHighest
  rw [hb, ha]
  exact sub_nonpos

theorem cmpNewest_le_iff {parseDate : String → Option Int} {a b : Customer} {x y : Int}
    (hb : dateNumber parseDate b = some x) (ha : dateNumber parseDate a = some y) :
    (cmpNewest parseDate a b ≤ 0 ↔ x ≤ y) := by
  unfold cmpNewest
  rw [hb, ha]
  rw [sub_nonpos]
  exact Int.cast_le

theorem cmpNewest_of_invalid {parseDate : String → Option Int} {a : Customer}
    (b : Customer) (h : dateNumber parseDate a = none) :
    cmpNewest parseDate a b = 0 ∧ cmpNewest parseDate b a = 0 := by
  unfold cmpNewest
  rw [h]
  constructor
  · cases dateNumber parseDate b <;> rfl
  · rfl

/-! ### Footer aggregation lemmas -/

theorem foldl_footerStep (l : List Customer) (h : ∀ c ∈ l, (debtNumber c).isSome = true) :
    ∀ a : Rat, l.foldl footerStep (some a) = some (a + (l.map debtVal).sum) := by
  induction l with
  | nil => simp
  | cons c t ih =>
    intro a
    rcases Option.isSome_iff_exists.mp (h c (by simp)) with ⟨q, hq⟩
    simp only [List.foldl_cons, footerStep, hq, List.map_cons, List.sum_cons]
    rw [ih (fun x hx => h x (by simp [hx])) (a + q)]
    rw [debtVal_of_debtNumber hq, add_assoc]

theorem footerSum_of_parse (l : List Customer) (h : ∀ c ∈ l, (debtNumber c).isSome = true) :
    footerSum l = some ((l.map debtVal).sum) := by
  unfold footerSum
  rw [foldl_footerStep l h 0, zero_add]

/-! ### Decimal rendering lemmas -/

theorem toDigitsCore_head (fuel : Nat) :
    ∀ n ds, 0 < n → n < fuel →
      ∃ c cs, Nat.toDigitsCore 10 fuel n ds = c :: cs ∧ c ≠ '0' := by
  induction fuel with
  | zero => intro n ds h1 h2; omega
  | succ fuel ih =>
    intro n ds hpos hlt
    rw [Nat.toDigitsCore]
    by_cases h : n / 10 = 0
    · rw [if_pos h]
      refine ⟨Nat.digitChar (n % 10), ds, rfl, ?_⟩
      have hn : n < 10 := by
        rcases Nat.lt_or_ge n 10 with hlt10 | hge
        · exact hlt10
        · exact absurd h (by omega)
      have hm : n % 10 = n := Nat.mod_eq_of_lt hn
      rw [hm]
      interval_cases n <;> decide
    · rw [if_neg h]
      have hd : n / 10 < n := Nat.div_lt_self hpos (by norm_num)
      exact ih (n / 10) _ (Nat.pos_of_ne_zero h) (by omega)

theorem repr_head {m : Nat} (h : 0 < m) :
    ∃ c cs, (Nat.repr m).data = c :: cs ∧ c ≠ '0' := by
  rcases toDigitsCore_head (m + 1) m [] h (by omega) with ⟨c, cs, hEq, hc⟩
  refine ⟨c, cs, ?_, hc⟩
  show (Nat.toDigits 10 m).asString.data = c :: cs
  rw [Nat.toDigits, hEq]
  rfl

theorem fixedDigits_ne_of_pos {n : Nat} (h : 0 < n) : fixedDigits n ≠ "0.00" := by
  rcases Nat.lt_or_ge n 100 with hlt | hge
  · interval_cases n <;> with_unfolding_all decide
  · intro hEq
    have hdiv : 0 < n / 100 := Nat.div_pos hge (by norm_num)
    rcases repr_head hdiv with ⟨c, cs, hdata, hc⟩
    have hstr : (fixedDigits n).data = "0.00".data := by rw [hEq]
    rw [fixedDigits] at hstr
    rw [String.data_append, String.data_append, hdata] at hstr
    simp only [List.cons_append] at hstr
    exact hc (List.head_eq_of_cons_eq hstr ▸ rfl)

theorem toFixed2_eq_zero_iff {q : Rat} (hq : 0 < q) :
    (toFixed2 q = "0.00" ↔ q < 1 / 200) := by
  have hneg : ¬q < 0 := not_lt.mpr hq.le
  unfold toFixed2
  rw [if_neg hneg, abs_of_pos hq]
  have hpre : ("" ++ fixedDigits (⌊q * 100 + 1 / 2⌋).toNat)
      = fixedDigits (⌊q * 100 + 1 / 2⌋).toNat := rfl
  rw [hpre]
  constructor
  · intro hEq
    by_contra hge
    push_neg at hge
    have h1 : (1 : Int) ≤ ⌊q * 100 + 1 / 2⌋ := by
      rw [Int.le_floor]
      push_cast
      nlinarith
    exact fixedDigits_ne_of_pos (by omega) hEq
  · intro hlt
    have h0 : ⌊q * 100 + 1 / 2⌋ = 0 := by
      rw [Int.floor_eq_zero_iff, Set.mem_Ico]
      constructor
      · positivity
      · nlinarith
    rw [h0]
    with_unfolding_all decide

theorem formatDebt_parse {s : String} {q : Rat} (hs : jsParseFloat s = some q) :
    formatDebt (some s) = toFixed2 q := by
  have hne : s ≠ "" := by
    rintro rfl
    rw [jsParseFloat_empty] at hs
    cases hs
  simp only [formatDebt]
  rw [if_neg hne, hs]

/-! ### Sortedness of the debtor list -/

theorem sorted_highest (parseDate : String → Option Int) (customers : List Customer) :
    List.Pairwise (fun a b => debtVal b ≤ debtVal a)
      (debtorCustomers parseDate .highest customers) := by
  unfold debtorCustomers
  refine pairwise_stableSort _ _ (fun x y z h1 h2 => le_trans h2 h1) ?_ ?_
  · intro a ha b hb
    rcases isDebtor_debtNumber (List.mem_filter.mp ha).2 with ⟨qa, hqa, _⟩
    rcases isDebtor_debtNumber (List.mem_filter.mp hb).2 with ⟨qb, hqb, _⟩
    show (decide (cmpHighest a b ≤ 0) = true) ↔ debtVal b ≤ debtVal a
    rw [decide_eq_true_eq, cmpHighest_le_iff hqb hqa,
      debtVal_of_debtNumber hqa, debtVal_of_debtNumber hqb]
  · intro a _ b _
    exact le_total (debtVal b) (debtVal a)

theorem sorted_newest (parseDate : String → Option Int) (customers : List Customer)
    (h : ∀ c ∈ customers, isDebtor c = true → (dateNumber parseDate c).isSome = true) :
    List.Pairwise (fun a b => dateVal parseDate b ≤ dateVal parseDate a)
      (debtorCustomers parseDate .newest customers) := by
  unfold debtorCustomers
  refine pairwise_stableSort _ _ (fun x y z h1 h2 => le_trans h2 h1) ?_ ?_
  · intro a ha b hb
    rcases List.mem_filter.mp ha with ⟨hamem, hadeb⟩
    rcases List.mem_filter.mp hb with ⟨hbmem, hbdeb⟩
    rcases Option.isSome_iff_exists.mp (h a hamem hadeb) with ⟨ta, hta⟩
    rcases Option.isSome_iff_exists.mp (h b hbmem hbdeb) with ⟨tb, htb⟩
    show (decide (cmpNewest parseDate a b ≤ 0) = true) ↔ dateVal parseDate b ≤ dateVal parseDate a
    rw [decide_eq_true_eq, cmpNewest_le_iff htb hta,
      dateVal_of_dateNumber hta, dateVal_of_dateNumber htb]
  · intro a _ b _
    exact le_total (dateVal parseDate b) (dateVal parseDate a)

/-! ### Concrete data for witnesses and counterexamples -/

/-- A concrete host-`Date` parser fragment, agreeing with ECMA-262 on every
string it is applied to below: the empty string is not a valid date-time
string (Invalid Date, `NaN` time), and the two ISO strings denote 1000 ms
and 2000 ms after the epoch. -/
def pdEx : String → Option Int := fun s =>
  if s = "1970-01-01T00:00:01.000Z" then some 1000
  else if s = "1970-01-01T00:00:02.000Z" then some 2000
  else none

/-- The scenario customer of the spec (id `abc123`, name `Ali`, debt
`1500.00`). -/
def custAli : Customer :=
  ⟨"abc123", "Ali", some "1500.00", some "1970-01-01T00:00:01.000Z"⟩

/-- A debtor with the older of the two concrete timestamps. -/
def custOld : Customer := ⟨"a", "A", some "10", some "1970-01-01T00:00:01.000Z"⟩

/-- A debtor whose `createdAt` is absent. -/
def custNoDate : Customer := ⟨"b", "B", some "20", none⟩

/-- A debtor with the newer of the two concrete timestamps. -/
def custNew : Customer := ⟨"c", "C", some "5", some "1970-01-01T00:00:02.000Z"⟩

/-- A debtor whose positive debt rounds to `0.00` at two decimals. -/
def custTiny : Customer := ⟨"t", "T", some "0.001", none⟩

/-! ### The claims -/

/-- C1 counterexample: with a customer selected and an empty amount field,
`handlePayment` issues no network request but also surfaces no
notification — refuting the claim that a validation notification is shown
whenever the amount field is empty. -/
theorem handlePayment_empty_silent_cex :
    handlePayment "USD" ⟨.highest, true, some custAli, ""⟩ = [] ∧
    ¬∃ e ∈ handlePayment "USD" ⟨.highest, true, some custAli, ""⟩, e.isToast = true := by
  with_unfolding_all decide

/-- C1 (amended): `handlePayment` aborts silently (no request, no
notification) when no customer is selected or the amount field is empty;
when a customer is selected and the amount parses to a value `≤ 0` it
surfaces only a validation notification and issues no request; when the
amount parses to a value `> 0` it emits exactly one payment request
carrying the selected customer's id, the parsed amount and the active
currency. -/
theorem handlePayment_spec (currency : String) (s : ComponentState) :
    (s.selectedCustomer = none → handlePayment currency s = []) ∧
    (s.paymentAmount = "" → handlePayment currency s = []) ∧
    (∀ c q, s.selectedCustomer = some c → jsParseFloat s.paymentAmount = some q → q ≤ 0 →
      handlePayment currency s = [Effect.toast "خطأ" "يجب أن يكون المبلغ أكبر من صفر" true]) ∧
    (∀ c q, s.selectedCustomer = some c → jsParseFloat s.paymentAmount = some q → 0 < q →
      handlePayment currency s = [Effect.paymentRequest c.id (some q) currency]) := by
  refine ⟨?_, ?_, ?_, ?_⟩
  · intro h
    simp [handlePayment, h]
  · intro h
    cases hc : s.selectedCustomer with
    | none => simp [handlePayment, hc]
    | some c => simp [handlePayment, hc, h]
  · intro c q hc hq hle
    have hne : s.paymentAmount ≠ "" := by
      rintro hEq
      rw [hEq, jsParseFloat_empty] at hq
      cases hq
    simp only [handlePayment, hc]
    rw [if_neg hne, hq]
    simp [hle]
  · intro c q hc hq hpos
    have hne : s.paymentAmount ≠ "" := by
      rintro hEq
      rw [hEq, jsParseFloat_empty] at hq
      cases hq
    simp only [handlePayment, hc]
    rw [if_neg hne, hq]
    simp [not_le.mpr hpos]

/-- Witness for C1 (amended): for the concrete state with customer
`custAli` and amount `"500"` the handler emits exactly the payment request,
and with amount `"0"` it emits exactly the validation toast. -/
theorem handlePayment_spec_witness :
    handlePayment "USD" ⟨.highest, true, some custAli, "500"⟩
        = [Effect.paymentRequest "abc123" (some 500) "USD"] ∧
    handlePayment "USD" ⟨.highest, true, some custAli, "0"⟩
        = [Effect.toast "خطأ" "يجب أن يكون المبلغ أكبر من صفر" true] := by
  constructor
  · exact (handlePayment_spec "USD" ⟨.highest, true, some custAli, "500"⟩).2.2.2
      custAli 500 rfl (by with_unfolding_all decide) (by norm_num)
  · exact (handlePayment_spec "USD" ⟨.highest, true, some custAli, "0"⟩).2.2.1
      custAli 0 rfl (by with_unfolding_all decide) le_rfl

/-- C2: the derived debtor list is a permutation of the records kept by the
filter, and a customer appears in it exactly when it appears in the fetched
collection with a present `totalDebt` that parses to a strictly positive
value (zero, negative, absent and unparsable — including empty — debts are
excluded). -/
theorem debtorCustomers_mem (parseDate : String → Option Int) (sortOrder : SortOrder)
    (customers : List Customer) :
    (debtorCustomers parseDate sortOrder customers).Perm (customers.filter isDebtor) ∧
    ∀ c, c ∈ debtorCustomers parseDate sortOrder customers ↔
      c ∈ customers ∧ ∃ s, c.totalDebt = some s ∧ ∃ q, jsParseFloat s = some q ∧ 0 < q := by
  constructor
  · exact perm_stableSort _ _
  · intro c
    unfold debtorCustomers
    rw [mem_stableSort, List.mem_filter, isDebtor_iff]

/-- C3 counterexample: under `newest`, a debtor with an absent `createdAt`
does not sort as if its timestamp were the epoch start: with the epoch-
start reading of the timestamps, the produced order is increasing, not
non-increasing.  (The `NaN` comparator result is treated as `+0`, so the
record keeps its position in the stable sort instead of sinking to the
end.) -/
theorem debtorCustomers_newest_cex :
    ¬List.Pairwise (fun a b => dateVal pdEx b ≤ dateVal pdEx a)
        (debtorCustomers pdEx .newest [custNoDate, custOld]) := by
  with_unfolding_all decide

/-- C3 (amended): sorting with `highest` yields non-increasing parsed
`totalDebt` values; sorting with `newest` yields non-increasing parsed
`createdAt` timestamps provided every debtor's `createdAt` parses; a record
with an unparsable or absent `createdAt` compares as equal (comparator
value 0) against every other record, so the stable sort keeps its relative
position. -/
theorem debtorCustomers_sorted (parseDate : String → Option Int) (customers : List Customer) :
    List.Pairwise (fun a b => debtVal b ≤ debtVal a)
        (debtorCustomers parseDate .highest customers) ∧
    ((∀ c ∈ customers, isDebtor c = true → (dateNumber parseDate c).isSome = true) →
      List.Pairwise (fun a b => dateVal parseDate b ≤ dateVal parseDate a)
        (debtorCustomers parseDate .newest customers)) ∧
    (∀ a b : Customer, dateNumber parseDate a = none →
      cmpNewest parseDate a b = 0 ∧ cmpNewest parseDate b a = 0) :=
  ⟨sorted_highest parseDate customers,
   sorted_newest parseDate customers,
   fun _ b h => cmpNewest_of_invalid b h⟩

/-- Witness for C3 (amended): on a concrete pair of debtors whose
timestamps both parse, the `newest` projection is sorted by descending
timestamp, and the `highest` projection by descending debt. -/
theorem debtorCustomers_sorted_witness :
    List.Pairwise (fun a b => dateVal pdEx b ≤ dateVal pdEx a)
        (debtorCustomers pdEx .newest [custOld, custNew]) ∧
    List.Pairwise (fun a b => debtVal b ≤ debtVal a)
        (debtorCustomers pdEx .highest [custOld, custNew]) ∧
    (cmpNewest pdEx custNoDate custOld = 0 ∧ cmpNewest pdEx custOld custNoDate = 0) :=
  ⟨(debtorCustomers_sorted pdEx [custOld, custNew]).2.1 (by with_unfolding_all decide),
   (debtorCustomers_sorted pdEx [custOld, custNew]).1,
   (debtorCustomers_sorted pdEx [custOld, custNew]).2.2 custNoDate custOld
     (by with_unfolding_all decide)⟩

/-- On a debt string that parses, `getDebtColor` returns the tier colour of
the parsed value. -/
theorem getDebtColor_parse {s : String} {q : Rat} (hq : jsParseFloat s = some q) :
    getDebtColor (some s) =
      if 5000 ≤ q then "text-red-600"
      else if 1000 ≤ q then "text-orange-600"
      else "text-yellow-600" := by
  have hne : s ≠ "" := by
    rintro rfl
    rw [jsParseFloat_empty] at hq
    cases hq
  simp only [getDebtColor]
  rw [if_neg hne, hq]

/-- `getDebtColor` is neutral exactly on a falsy (absent or empty) debt
string. -/
theorem getDebtColor_neutral_iff (debt : Option String) :
    (getDebtColor debt = "text-slate-500" ↔ debt = none ∨ debt = some "") := by
  cases debt with
  | none => simp [getDebtColor]
  | some s =>
    by_cases hs : s = ""
    · subst hs
      simp [getDebtColor]
    · constructor
      · intro h
        cases hq : jsParseFloat s with
        | none =>
          rw [show getDebtColor (some s) = "text-yellow-600" from by
            simp only [getDebtColor]
            rw [if_neg hs, hq]] at h
          exact absurd h (by decide)
        | some q =>
          rw [getDebtColor_parse hq] at h
          split_ifs at h <;> exact absurd h (by decide)
      · rintro (h | h)
        · cases h
        · exact absurd (Option.some.inj h) hs

/-- C4 counterexample: after a successful payment the component does not
force an immediate refetch of the transaction collection — only the
customer collection is refetched — refuting the claim that both are
immediately refetched. -/
theorem onSuccess_no_transactions_refetch_cex :
    Effect.refetchQueries "/api/transactions" ∉
      (onSuccess "USD" ⟨some 1000⟩ ⟨.highest, true, some custAli, "500"⟩).2 := by
  with_unfolding_all decide

/-- C4 (amended): on a successful payment response the component
invalidates both the customer and the transaction collections, immediately
refetches the customer collection only, shows a success notification
stating the amount paid and the backend-reported remaining debt (defaulting
to zero when the response omits `newDebt`), closes the dialog, and clears
the selected customer and the draft amount. -/
theorem onSuccess_spec (currency : String) (resp : PaymentResponse) (s : ComponentState) :
    (onSuccess currency resp s).1.showPaymentModal = false ∧
    (onSuccess currency resp s).1.selectedCustomer = none ∧
    (onSuccess currency resp s).1.paymentAmount = "" ∧
    Effect.invalidateQueries "/api/customers" ∈ (onSuccess currency resp s).2 ∧
    Effect.invalidateQueries "/api/transactions" ∈ (onSuccess currency resp s).2 ∧
    Effect.refetchQueries "/api/customers" ∈ (onSuccess currency resp s).2 ∧
    Effect.refetchQueries "/api/transactions" ∉ (onSuccess currency resp s).2 ∧
    Effect.toast "تم السداد بنجاح"
        ("تم دفع " ++ s.paymentAmount ++ " " ++ currency ++ ". الرصيد المتبقي: "
          ++ toFixed2 (resp.newDebt.getD 0) ++ " " ++ currency) false
      ∈ (onSuccess currency resp s).2 := by
  refine ⟨rfl, rfl, rfl, ?_, ?_, ?_, ?_, ?_⟩
  · simp [onSuccess]
  · simp [onSuccess]
  · simp [onSuccess]
  · simp [onSuccess]
  · simp [onSuccess]

/-- C5: when the payment settles as a failure — a non-OK response (the
mutation function throws) or a thrown transport error — the component
state is unchanged (the dialog stays open, the selected customer and the
draft amount keep their pre-submission values), exactly one failure
notification is emitted, and no network request is issued by the
callback. -/
theorem paymentFailure_spec (currency : String) (s : ComponentState) (r : HttpResult)
    (h : r = HttpResult.notOk ∨ r = HttpResult.thrown) :
    (settleMutation currency r s).1 = s ∧
    (settleMutation currency r s).2 = [Effect.toast "خطأ في السداد" "فشل في معالجة السداد" true] ∧
    ∀ e ∈ (settleMutation currency r s).2, e.isRequest = false := by
  rcases h with rfl | rfl <;>
    exact ⟨rfl, rfl, by intro e he; rw [List.mem_singleton.mp he]; rfl⟩

/-- Witness for C5: at the concrete pre-submission state (dialog open,
customer `custAli` selected, amount `"500"`) and a non-OK settlement, the
state is returned unchanged. -/
theorem paymentFailure_spec_witness :
    (settleMutation "USD" HttpResult.notOk ⟨.highest, true, some custAli, "500"⟩).1
        = ⟨.highest, true, some custAli, "500"⟩ ∧
    (settleMutation "USD" HttpResult.thrown ⟨.highest, true, some custAli, "500"⟩).2
        = [Effect.toast "خطأ في السداد" "فشل في معالجة السداد" true] :=
  ⟨(paymentFailure_spec "USD" ⟨.highest, true, some custAli, "500"⟩ HttpResult.notOk
      (Or.inl rfl)).1,
   (paymentFailure_spec "USD" ⟨.highest, true, some custAli, "500"⟩ HttpResult.thrown
      (Or.inr rfl)).2.1⟩

/-- C6 counterexample: a present debt string `"0"` is truthy, so a zero
debt is rendered in the lowest tier colour, not the neutral tone the claim
assigns to zero debts. -/
theorem getDebtColor_zero_cex :
    getDebtColor (some "0") = "text-yellow-600" ∧
    getDebtColor (some "0") ≠ "text-slate-500" := by
  with_unfolding_all decide

/-- C6 (amended): the neutral tone is used exactly for a falsy debt string
(absent or empty); any debt string that parses is coloured in three tiers
by the parsed value — `≥ 5000` the top tier, `≥ 1000` the middle tier, and
everything below (zero and negative values included) the lowest tier. -/
theorem getDebtColor_spec (debt : Option String) :
    (getDebtColor debt = "text-slate-500" ↔ debt = none ∨ debt = some "") ∧
    (∀ s q, debt = some s → jsParseFloat s = some q →
      getDebtColor debt =
        if 5000 ≤ q then "text-red-600"
        else if 1000 ≤ q then "text-orange-600"
        else "text-yellow-600") := by
  refine ⟨getDebtColor_neutral_iff debt, ?_⟩
  rintro s q rfl hq
  exact getDebtColor_parse hq

/-- Witness for C6 (amended): the concrete tiers at `"1500.00"` and
`"10"`. -/
theorem getDebtColor_spec_witness :
    getDebtColor (some "1500.00") = "text-orange-600" ∧
    getDebtColor (some "10") = "text-yellow-600" := by
  constructor
  · rw [(getDebtColor_spec (some "1500.00")).2 "1500.00" 1500 rfl
      (by with_unfolding_all decide)]
    with_unfolding_all decide
  · rw [(getDebtColor_spec (some "10")).2 "10" 10 rfl (by with_unfolding_all decide)]
    with_unfolding_all decide

/-- C7: the footer is rendered exactly when the debtor list is non-empty;
its aggregate is the sum of the parsed `totalDebt` values over the debtor
list (`NaN`/absent contributions reading as zero, which never occurs for
debtors) displayed to two decimals, and its count is the number of fetched
customers that pass the debtor filter. -/
theorem footer_spec (parseDate : String → Option Int) (sortOrder : SortOrder)
    (customers : List Customer) :
    (footerVisible (debtorCustomers parseDate sortOrder customers) = true ↔
      debtorCustomers parseDate sortOrder customers ≠ []) ∧
    footerSum (debtorCustomers parseDate sortOrder customers)
      = some (((debtorCustomers parseDate sortOrder customers).map debtVal).sum) ∧
    footerTotal (debtorCustomers parseDate sortOrder customers)
      = toFixed2 (((debtorCustomers parseDate sortOrder customers).map debtVal).sum) ∧
    (debtorCustomers parseDate sortOrder customers).length
      = (customers.filter isDebtor).length := by
  have hdeb : ∀ c ∈ debtorCustomers parseDate sortOrder customers,
      (debtNumber c).isSome = true := by
    intro c hc
    rcases isDebtor_debtNumber (mem_debtorCustomers_isDebtor hc) with ⟨q, hq, _⟩
    rw [hq]
    rfl
  have hsum := footerSum_of_parse _ hdeb
  refine ⟨?_, hsum, ?_, ?_⟩
  · rw [footerVisible, decide_eq_true_eq]
    exact List.length_pos
  · rw [footerTotal, hsum]
    rfl
  · exact length_stableSort _ _

/-- C8: opening the payment dialog for a customer sets the selection to
that customer, resets the draft amount to the empty string, opens the
dialog, leaves the sort order as it was, and issues no effect (in
particular no network request) — regardless of the prior state. -/
theorem openPaymentModal_spec (c : Customer) (s : ComponentState) :
    (openPaymentModal c s).1.selectedCustomer = some c ∧
    (openPaymentModal c s).1.paymentAmount = "" ∧
    (openPaymentModal c s).1.showPaymentModal = true ∧
    (openPaymentModal c s).1.sortOrder = s.sortOrder ∧
    (openPaymentModal c s).2 = [] :=
  ⟨rfl, rfl, rfl, rfl, rfl⟩

/-- C9: whenever the payment mutation is pending, the confirm control is
disabled and shows the busy label, and the cancel control is disabled as
well — in every component state. -/
theorem pendingControls_spec (s : ComponentState) :
    (confirmButton s true).disabled = true ∧
    (confirmButton s true).label = "جارٍ المعالجة..." ∧
    (cancelButton true).disabled = true := by
  refine ⟨?_, rfl, rfl⟩
  simp [confirmButton]

/-- C10 counterexample: the customer with debt string `"0.001"` is a
debtor (its debt parses to a strictly positive value) yet its rendered
amount is exactly `"0.00"` — refuting the claim that a debtor row's
formatted amount is never `"0.00"`. -/
theorem debtor_row_format_cex :
    custTiny ∈ debtorCustomers pdEx .highest [custTiny] ∧
    formatDebt custTiny.totalDebt = "0.00" := by
  with_unfolding_all decide

/-- C10 (amended): every record of the derived debtor list has a
`totalDebt` that parses to a strictly positive value; consequently no
debtor row receives the neutral (absent-debt) colour and the footer sum is
never `NaN`; the formatted amount of a debtor row is `"0.00"` exactly when
the parsed debt is below `0.005` (such positive debts round to two decimal
places as `"0.00"`). -/
theorem debtor_row_invariant (parseDate : String → Option Int) (sortOrder : SortOrder)
    (customers : List Customer) :
    (∀ c ∈ debtorCustomers parseDate sortOrder customers,
      ∃ s q, c.totalDebt = some s ∧ jsParseFloat s = some q ∧ 0 < q ∧
        getDebtColor c.totalDebt ≠ "text-slate-500" ∧
        (formatDebt c.totalDebt = "0.00" ↔ q < 1 / 200)) ∧
    (footerSum (debtorCustomers parseDate sortOrder customers)).isSome = true := by
  have hdeb : ∀ c ∈ debtorCustomers parseDate sortOrder customers,
      (debtNumber c).isSome = true := by
    intro c hc
    rcases isDebtor_debtNumber (mem_debtorCustomers_isDebtor hc) with ⟨q, hq, _⟩
    rw [hq]
    rfl
  constructor
  · intro c hc
    rcases (isDebtor_iff c).mp (mem_debtorCustomers_isDebtor hc) with ⟨s, hs, q, hq, hpos⟩
    refine ⟨s, q, hs, hq, hpos, ?_, ?_⟩
    · rw [hs, getDebtColor_parse hq]
      split_ifs <;> decide
    · rw [hs, formatDebt_parse hq]
      exact toFixed2_eq_zero_iff hpos
  · rw [footerSum_of_parse _ hdeb]
    rfl

/-- Witness for C10 (amended): the concrete debtor list over `custOld`
(debt `"10"`) satisfies the row invariant, and the tiny debtor `custTiny`
instantiates the `"0.00"` reading. -/
theorem debtor_row_invariant_witness :
    (∃ s q, custOld.totalDebt = some s ∧ jsParseFloat s = some q ∧ 0 < q ∧
      getDebtColor custOld.totalDebt ≠ "text-slate-500" ∧
      (formatDebt custOld.totalDebt = "0.00" ↔ q < 1 / 200)) ∧
    (∃ s q, custTiny.totalDebt = some s ∧ jsParseFloat s = some q ∧ 0 < q ∧
      getDebtColor custTiny.totalDebt ≠ "text-slate-500" ∧
      (formatDebt custTiny.totalDebt = "0.00" ↔ q < 1 / 200)) :=
  ⟨(debtor_row_invariant pdEx .highest [custOld]).1 custOld (by with_unfolding_all decide),
   (debtor_row_invariant pdEx .highest [custTiny]).1 custTiny (by with_unfolding_all decide)⟩
